import Mathlib

/-!
# Verification of the alphapop bubble game core

Shallow embedding of the round-progression state machine and the spatial
simulation of `src/main.py` (the later variant) and `src/alphapop.py`
(the earlier variant) of the `alphapop` repository.

Modelling conventions:

* Python floats are modelled as exact rationals (`ℚ`); all the claims under
  study are about exact arithmetic.
* `distance(a, b)` in the source is `sqrt((ax-bx)^2 + (ay-by)^2)`.  Square
  roots are irrational, so every comparison `distance(a,b) < r` made by the
  source (placement test, hit test, collision guard) is embedded as the
  equivalent comparison of squares `sqDist a b < r^2` — equivalent because
  both sides of the source's comparison are nonnegative (radii in the game
  are positive: `bubble_radius = min(width, height)/8`).
* The collision axis `v = (c_j - c_i) / d_ij` only enters the physics through
  the tangential components `t = v * dot(v, d)`, and
  `v * dot(v, d) = u * (dot(u, d) / sqDist)` where `u = c_j - c_i` and
  `sqDist = d_ij^2`, so the collision update is expressed with exact rational
  arithmetic.
* Randomness (`random.randrange`, `random.random`, `random.choice`) is
  modelled by oracle parameters; the contract of `randrange(a, b)` (result in
  `[a, b)`) appears as a hypothesis where a theorem needs it.
* Sound, image and rectangle geometry (`get_mode_rect`, pixel sizes) are
  external collaborators; whether a tap lands in an indicator rectangle is an
  oracle boolean, and the raw count read off the tap's x offset is an oracle
  integer (the clamping arithmetic applied to it is embedded from the code).
-/

namespace AlphaPop

/-- 2D point/vector, as in the source's 2-element lists. -/
abbrev Vec := ℚ × ℚ

/-- `sub(a, b)` from the source: componentwise difference. -/
def sub (a b : Vec) : Vec := (a.1 - b.1, a.2 - b.2)

/-- `add(a, b)` from the source: componentwise sum. -/
def add (a b : Vec) : Vec := (a.1 + b.1, a.2 + b.2)

/-- `prod(a, x)` from the source: scale the vector `a` by the scalar `x`. -/
def prod (a : Vec) (x : ℚ) : Vec := (a.1 * x, a.2 * x)

/-- `dot(a, b)` from the source: the scalar product. -/
def dot (a b : Vec) : ℚ := a.1 * b.1 + a.2 * b.2

/-- The square of the source's `distance(a, b)`; the source compares
`distance` (a square root) against nonnegative quantities only, which is
equivalent to comparing `sqDist` against the square. -/
def sqDist (a b : Vec) : ℚ := (a.1 - b.1)^2 + (a.2 - b.2)^2

/-- A bubble: one cased letter, a radius, the top-left corner of its bounding
box, and a direction of travel (`Bubble.__init__` keeps exactly these).  The
letter is `base` (an index for the grapheme) plus a case flag, following the
data model (the rendered glyph itself is external). -/
structure Bubble where
  base : ℕ
  upper : Bool
  radius : ℚ
  position : Vec
  direction : Vec
deriving DecidableEq, Repr

instance : Inhabited Bubble := ⟨⟨0, true, 0, (0, 0), (0, 0)⟩⟩

/-- `Bubble.center`: `position + (radius, radius)`. -/
def Bubble.center (b : Bubble) : Vec := (b.position.1 + b.radius, b.position.2 + b.radius)

/-- `Bubble.diameter`: `2 * radius`. -/
def Bubble.diameter (b : Bubble) : ℚ := 2 * b.radius

/-! ## PlacementEngine (`Game.make_bubble`, src/main.py lines 259-270)

The source repeatedly draws `position = [randrange(rangex), randrange(rangey)]`
with `rangex = width - 2*radius`, `rangey = height - 2*radius` and accepts the
first draw for which no existing bubble `b` has
`distance(b.center(), center) < b.radius + radius`.  The loop is unbounded; we
model it over the (finite) list of candidates the random source produces, so
exhaustion is `none`. -/

/-- The rejection test of `make_bubble`: the candidate center is strictly
closer to `b`'s center than the sum of the radii (squared form). -/
def tooClose (c : Vec) (radius : ℚ) (b : Bubble) : Bool :=
  decide (sqDist b.center c < (b.radius + radius)^2)

/-- Candidate center for a candidate top-left corner drawn by `make_bubble`. -/
def candCenter (radius : ℚ) (p : ℕ × ℕ) : Vec := ((p.1 : ℚ) + radius, (p.2 : ℚ) + radius)

/-- The retry loop of `make_bubble`: return the first candidate position that
is not too close to any existing bubble. -/
def place (radius : ℚ) (bubbles : List Bubble) : List (ℕ × ℕ) → Option (ℕ × ℕ)
  | [] => none
  | p :: rest =>
      if bubbles.any (fun b => tooClose (candCenter radius p) radius b) then
        place radius bubbles rest
      else
        some p

/-- Two bubbles are separated when their center distance is at least the sum
of their radii (squared form of the spec's no-overlap condition). -/
def Separated (a b : Bubble) : Prop :=
  (a.radius + b.radius)^2 ≤ sqDist a.center b.center

/-- Build a bubble from an accepted position (direction and letter are drawn
from the oracle; they do not influence placement). -/
def spawnOne (radius : ℚ) (dir : Vec) (letter : ℕ) (bubbles : List Bubble)
    (cands : List (ℕ × ℕ)) : Option Bubble :=
  (place radius bubbles cands).map
    (fun p => ⟨letter, true, radius, ((p.1 : ℚ), (p.2 : ℚ)), dir⟩)

/-- The initial population loop of `Game.__init__`: starting from `bs`, place
one bubble per candidate list and append it (`self.bubbles.append(...)`). -/
def spawnAll (radius : ℚ) (dirs : ℕ → Vec) (k : ℕ) :
    List (List (ℕ × ℕ)) → List Bubble → Option (List Bubble)
  | [], bs => some bs
  | cs :: rest, bs =>
      match spawnOne radius (dirs k) k bs cs with
      | none => none
      | some b => spawnAll radius dirs (k + 1) rest (bs ++ [b])

/-! ## PhysicsEngine (`Game.physics`, src/main.py lines 404-433)

`physics` first advances every bubble and reflects it off the walls (one
fused loop per bubble), then runs the pairwise collision double loop. -/

/-- `speed = self.height/(5*Game.FPS)` with `FPS = 30`. -/
def speed (height : ℚ) : ℚ := height / (5 * 30)

/-- One axis of the wall-reflection step: negate the direction exactly when
the (already advanced) position is past that wall and the motion still drives
the bubble further out. -/
def wallAxis (p d diam bound : ℚ) : ℚ :=
  if p < 0 ∧ d < 0 then -d
  else if p + diam > bound ∧ d > 0 then -d
  else d

/-- Advance plus wall reflection for one bubble (the first loop of
`Game.physics`): `position += direction * speed`, then each axis of
`direction` is reflected by `wallAxis` against the screen size. -/
def moveBubble (width height : ℚ) (b : Bubble) : Bubble :=
  let sp := speed height
  let p : Vec := (b.position.1 + b.direction.1 * sp, b.position.2 + b.direction.2 * sp)
  { b with
    position := p
    direction := (wallAxis p.1 b.direction.1 b.diameter width,
                  wallAxis p.2 b.direction.2 b.diameter height) }

/-- The tangential component used by the collision exchange.  The source
computes `v = (c_j - c_i)/d_ij` and `t = v * dot(v, d)`; with `u = c_j - c_i`
and `s = d_ij^2 = sqDist c_i c_j` this equals `u * (dot(u, d) / s)` exactly,
which is how the square root is eliminated. -/
def tangential (u : Vec) (s : ℚ) (d : Vec) : Vec := prod u (dot u d / s)

/-- The pairwise collision body of `Game.physics` for one pair, with the four
sequential direction updates of the source
(`bj.direction = add(bj.direction, tij)` and so on). -/
def collidePair (bi bj : Bubble) : Bubble × Bubble :=
  let ci := bi.center
  let cj := bj.center
  let s := sqDist ci cj
  if s < (bi.radius + bj.radius)^2 then
    let u := sub cj ci
    let tij := tangential u s bi.direction
    let tji := tangential u s bj.direction
    let dj1 := add bj.direction tij
    let di1 := sub bi.direction tij
    let di2 := add di1 tji
    let dj2 := sub dj1 tji
    ({ bi with direction := di2 }, { bj with direction := dj2 })
  else (bi, bj)

/-- Apply `collidePair` to the bubbles at indices `i` and `j`. -/
def collideIdx (bs : List Bubble) (i j : ℕ) : List Bubble :=
  let r := collidePair (bs.getD i default) (bs.getD j default)
  (bs.set i r.1).set j r.2

/-- The inner loop `for j in range(i+1, len(bubbles))`; the first `ℕ`
argument after `i` is the number of remaining iterations. -/
def collideInner (i : ℕ) : ℕ → ℕ → List Bubble → List Bubble
  | 0, _, bs => bs
  | m + 1, j, bs => collideInner i m (j + 1) (collideIdx bs i j)

/-- The outer loop `for i in range(len(bubbles))`. -/
def collideOuter : ℕ → ℕ → List Bubble → List Bubble
  | 0, _, bs => bs
  | m + 1, i, bs => collideOuter m (i + 1) (collideInner i (bs.length - (i + 1)) (i + 1) bs)

/-- One full physics tick: move every bubble, then resolve pairwise
collisions. -/
def physicsStep (width height : ℚ) (bs : List Bubble) : List Bubble :=
  let moved := bs.map (moveBubble width height)
  collideOuter moved.length 0 moved

/-! ## AlphabetCursor and ModeController (`Game.make_bubble`, lines 277-284)

`letter = self.alphabet[self.next_letter % len(self.alphabet)]` followed by
`self.next_letter += 1`, then the case policy is applied.  The alphabet
entries are kept abstract (`α`); `d` is the irrelevant out-of-range default of
list indexing. -/

/-- The letter drawn by the `n`-th call of `make_bubble`. -/
def drawLetter {α : Type} (alphabet : List α) (d : α) (n : ℕ) : α :=
  alphabet.getD (n % alphabet.length) d

/-- The case policy: mode 0 (`UPPERCASE_MODE`) forces upper, mode 1
(`MIXEDCASE_MODE`) uses a fair coin, anything else forces lower.  The
grapheme is returned unchanged together with the case flag. -/
def applyMode {α : Type} (mode : ℕ) (coin : Bool) (x : α) : α × Bool :=
  if mode = 0 then (x, true)
  else if mode = 1 then (x, coin)
  else (x, false)

/-! ## RoundStateMachine (`Game.run` and `Game.clicked`) -/

/-- The UI states `ANNOUNCE_STATE`, `PLAY_STATE`, `BRAVO_STATE`. -/
inductive Phase
  | announce
  | play
  | bravo
deriving DecidableEq, Repr

/-- The mutable round state of `Game` that the claims touch: the bubble list,
the target index, the UI state, the case mode, the correct-answer counter and
the index of the currently loaded background image. -/
structure GameState where
  bubbles : List Bubble
  target : ℕ
  phase : Phase
  mode : ℕ
  correct : ℕ
  bgIdx : ℕ
deriving DecidableEq, Repr

/-- The external/random inputs consumed by one call of `Game.clicked`:
`mkB k` is the bubble returned by the `k`-th `make_bubble()` call of the
handler; `randTarget m` models `random.randrange(m)`; `rawCount` is the raw
`1 + int(((x - rect.left)/rect.width) * maxn)` read off the tap position
(rectangle geometry is external); `shrinkPick k` models the `k`-th
`random.randrange(1, len(bubbles))` of the shrink loop; the two booleans are
the `collidepoint` tests of the indicator rectangles. -/
structure ClickOracle where
  mkB : ℕ → Bubble
  randTarget : ℕ → ℕ
  rawCount : ℤ
  shrinkPick : ℕ → ℕ
  inModeRect : Bool
  inBubblesRect : Bool

/-- The hit test `distance(pos, b.center()) < b.radius` (squared form). -/
def hits (pos : Vec) (b : Bubble) : Bool :=
  decide (sqDist pos b.center < b.radius^2)

/-- Whether a tap at `pos` hits the current target bubble. -/
def hitsTarget (pos : Vec) (g : GameState) : Bool :=
  hits pos (g.bubbles.getD g.target default)

/-- The clamping applied to the raw requested bubble count:
`n = int(max(1, min(n, maxn)))` then `n = max(n, 1)`. -/
def clampCount (rawCount : ℤ) (maxn : ℕ) : ℕ :=
  (max (max 1 (min rawCount (maxn : ℤ))) 1).toNat

/-- `while len(self.bubbles) < n: self.bubbles.append(self.make_bubble())`. -/
def growTo (mk : ℕ → Bubble) (k n : ℕ) (bs : List Bubble) : List Bubble :=
  if bs.length < n then growTo mk (k + 1) n (bs ++ [mk k]) else bs
termination_by n - bs.length
decreasing_by simp; omega

/-- The simultaneous assignment
`bs[i], bs[j] = bs[j], bs[i]` (both reads happen before the writes). -/
def listSwap (bs : List Bubble) (i j : ℕ) : List Bubble :=
  (bs.set i (bs.getD j default)).set j (bs.getD i default)

/-- `while len(self.bubbles) > n:` swap a random index `≥ 1` with the last
position and delete the last element. -/
def shrinkTo (pick : ℕ → ℕ) (k n : ℕ) (bs : List Bubble) : List Bubble :=
  if h : n < bs.length then
    shrinkTo pick (k + 1) n ((listSwap bs (pick k) (bs.length - 1)).dropLast)
  else bs
termination_by bs.length
decreasing_by simp [listSwap]; omega

/-- The wrong-tap loop `for i in range(len(self.bubbles))` that pops (and
replaces in place) every bubble containing the tap point; arguments are the
remaining iteration count, the current index `i` and the `make_bubble`
counter `k`. -/
def popWrong (mk : ℕ → Bubble) (pos : Vec) : ℕ → ℕ → ℕ → List Bubble → List Bubble
  | 0, _, _, bs => bs
  | m + 1, i, k, bs =>
      if hits pos (bs.getD i default) then
        popWrong mk pos m (i + 1) (k + 1) (bs.set i (mk k))
      else
        popWrong mk pos m (i + 1) k bs

/-- Structural restatement of `popWrong` used in proofs: traverse the list,
replacing each hit bubble with the next fresh one. -/
def popSpec (mk : ℕ → Bubble) (pos : Vec) : ℕ → List Bubble → List Bubble
  | _, [] => []
  | k, b :: rest =>
      if hits pos b then mk k :: popSpec mk pos (k + 1) rest
      else b :: popSpec mk pos k rest

/-- `Game.clicked` of src/main.py (lines 436-496): the four branches are
correct tap, mode-indicator tap, bubble-count-indicator tap, and the
wrong-tap fallback.  `nbg` is `len(self.backgrounds)`, `maxn` is
`len(self.bubble_imgs)`. -/
def clicked (nbg maxn : ℕ) (o : ClickOracle) (pos : Vec) (g : GameState) : GameState :=
  let b := g.bubbles.getD g.target default
  if hits pos b then
    let bubbles := g.bubbles.set g.target (o.mkB 0)
    let correct := g.correct + 1
    let bgIdx := if correct % 7 = 0 then (correct / 7) % nbg else g.bgIdx
    { g with bubbles := bubbles, correct := correct, bgIdx := bgIdx,
             target := o.randTarget bubbles.length, phase := Phase.bravo }
  else if o.inModeRect then
    { g with mode := (g.mode + 1) % 3 }
  else if o.inBubblesRect then
    let n := clampCount o.rawCount maxn
    let bs1 := listSwap g.bubbles g.target 0
    let bs2 := growTo o.mkB 0 n bs1
    let bs3 := shrinkTo o.shrinkPick 0 n bs2
    { g with bubbles := bs3, target := 0 }
  else
    { g with bubbles := popWrong o.mkB pos g.bubbles.length 0 0 g.bubbles }

/-- `Game.clicked` of src/alphapop.py (lines 328-348), the earlier variant:
on a correct tap the target is replaced, the counter (named `duration` there)
increments, and on every 7th correct answer a new bubble is appended while
fewer than 8 exist; any other tap only plays the wrong cue. -/
def clickedV1 (o : ClickOracle) (pos : Vec) (g : GameState) : GameState :=
  let b := g.bubbles.getD g.target default
  if hits pos b then
    let bubbles := g.bubbles.set g.target (o.mkB 0)
    let correct := g.correct + 1
    let bubbles2 :=
      if correct % 7 = 0 ∧ bubbles.length < 8 then bubbles ++ [o.mkB 1] else bubbles
    { g with bubbles := bubbles2, correct := correct,
             target := o.randTarget bubbles2.length, phase := Phase.bravo }
  else g

/-- The events the main loop of `Game.run` dispatches on. -/
inductive GEvent
  | refresh
  | announceTimer
  | bravoTimer
  | mouseDown (pos : Vec)
  | escape

/-- One iteration of the `Game.run` event loop.  A mouse click is handled
only when the state is not `BRAVO_STATE`; the announce-timer expiry sets
`PLAY_STATE`; the bravo-timer expiry calls `announce_target`, which sets
`ANNOUNCE_STATE`; a refresh runs the physics. -/
def handleEvent (width height : ℚ) (nbg maxn : ℕ) (o : ClickOracle) :
    GEvent → GameState → GameState
  | GEvent.refresh, g => { g with bubbles := physicsStep width height g.bubbles }
  | GEvent.announceTimer, g => { g with phase := Phase.play }
  | GEvent.bravoTimer, g => { g with phase := Phase.announce }
  | GEvent.mouseDown pos, g =>
      if g.phase ≠ Phase.bravo then clicked nbg maxn o pos g else g
  | GEvent.escape, g => g

/-! ## Proofs -/

lemma sqDist_comm (a b : Vec) : sqDist a b = sqDist b a := by
  simp only [sqDist]; ring

lemma separated_symm {a b : Bubble} (h : Separated a b) : Separated b a := by
  simpa [Separated, sqDist_comm, add_comm] using h

/-- The accepted position of `place` passes the distance test against every
existing bubble. -/
lemma place_separated {radius : ℚ} {bubbles : List Bubble} {cands : List (ℕ × ℕ)}
    {p : ℕ × ℕ} (h : place radius bubbles cands = some p) :
    ∀ b ∈ bubbles, (b.radius + radius)^2 ≤ sqDist b.center (candCenter radius p) := by
  induction cands with
  | nil => simp [place] at h
  | cons c rest ih =>
      by_cases hc : bubbles.any (fun b => tooClose (candCenter radius c) radius b)
      · rw [place, if_pos hc] at h
        exact ih h
      · rw [place, if_neg hc] at h
        cases h
        intro b hb
        rw [List.any_eq_true] at hc
        push_neg at hc
        have := hc b hb
        simpa [tooClose, not_lt] using this

/-- The accepted position comes from the candidate list. -/
lemma place_mem {radius : ℚ} {bubbles : List Bubble} {cands : List (ℕ × ℕ)}
    {p : ℕ × ℕ} (h : place radius bubbles cands = some p) : p ∈ cands := by
  induction cands with
  | nil => simp [place] at h
  | cons c rest ih =>
      by_cases hc : bubbles.any (fun b => tooClose (candCenter radius c) radius b)
      · rw [place, if_pos hc] at h
        exact List.mem_cons_of_mem _ (ih h)
      · rw [place, if_neg hc] at h
        cases h
        exact List.mem_cons_self _ _

/-- A spawned bubble is separated from every bubble existing at placement. -/
lemma spawnOne_separated {radius : ℚ} {dir : Vec} {letter : ℕ}
    {bubbles : List Bubble} {cands : List (ℕ × ℕ)} {b : Bubble}
    (h : spawnOne radius dir letter bubbles cands = some b) :
    ∀ a ∈ bubbles, Separated a b := by
  intro a ha
  unfold spawnOne at h
  cases hp : place radius bubbles cands with
  | none => rw [hp] at h; simp at h
  | some p =>
      rw [hp] at h
      rw [Option.map_some'] at h
      cases h
      have := place_separated hp a ha
      simpa [Separated, Bubble.center, candCenter] using this

/-- The whole initial population is pairwise separated. -/
lemma spawnAll_pairwise {radius : ℚ} {dirs : ℕ → Vec} :
    ∀ (css : List (List (ℕ × ℕ))) (k : ℕ) (bs out : List Bubble),
    bs.Pairwise Separated →
    spawnAll radius dirs k css bs = some out → out.Pairwise Separated := by
  intro css
  induction css with
  | nil =>
      intro k bs out hbs h
      simp only [spawnAll] at h
      cases h; exact hbs
  | cons cs rest ih =>
      intro k bs out hbs h
      simp only [spawnAll] at h
      cases hb : spawnOne radius (dirs k) k bs cs with
      | none => rw [hb] at h; simp at h
      | some b =>
          rw [hb] at h
          refine ih (k + 1) (bs ++ [b]) out ?_ h
          rw [List.pairwise_append]
          refine ⟨hbs, List.pairwise_singleton _ _, ?_⟩
          intro a ha b' hb'
          rw [List.mem_singleton] at hb'
          subst hb'
          exact spawnOne_separated hb a ha

/-- C1: every position returned by the `make_bubble` retry loop keeps the
bubble's bounding box fully inside the screen (because candidates are drawn
from `randrange(width - 2*radius)` × `randrange(height - 2*radius)`), and its
center is at distance at least the sum of the radii from the center of every
bubble existing at the moment of placement (squared form); consequently a
population spawned from the empty list is pairwise non-overlapping at spawn
time. -/
theorem make_bubble_placement_no_overlap
    (radius width height : ℕ) (bubbles : List Bubble) (cands : List (ℕ × ℕ))
    (p : ℕ × ℕ) (dirs : ℕ → Vec) (css : List (List (ℕ × ℕ))) (out : List Bubble)
    (hcands : ∀ c ∈ cands, c.1 < width - 2 * radius ∧ c.2 < height - 2 * radius)
    (hplace : place (radius : ℚ) bubbles cands = some p)
    (hspawn : spawnAll (radius : ℚ) dirs 0 css [] = some out) :
    (p.1 + 2 * radius < width ∧ p.2 + 2 * radius < height) ∧
    (∀ b ∈ bubbles,
        (b.radius + (radius : ℚ))^2 ≤ sqDist b.center (candCenter (radius : ℚ) p)) ∧
    out.Pairwise Separated := by
  refine ⟨?_, place_separated hplace, spawnAll_pairwise css 0 [] out List.Pairwise.nil hspawn⟩
  have := hcands p (place_mem hplace)
  omega

/-- Witness for C1 at a concrete placement and a concrete two-bubble spawn. -/
theorem make_bubble_placement_no_overlap_witness :
    ((0 + 2 * 60 < 800 ∧ 0 + 2 * 60 < 480) ∧
      (∀ b ∈ ([] : List Bubble),
          (b.radius + (60 : ℚ))^2 ≤ sqDist b.center (candCenter (60 : ℚ) (0, 0))) ∧
      ([⟨0, true, 60, (0, 0), (0, 0)⟩,
        ⟨1, true, 60, (300, 0), (0, 0)⟩] : List Bubble).Pairwise Separated) :=
  make_bubble_placement_no_overlap 60 800 480 [] [(0, 0)] (0, 0) (fun _ => (0, 0))
    [[(0, 0)], [(300, 0)]]
    [⟨0, true, 60, (0, 0), (0, 0)⟩, ⟨1, true, 60, (300, 0), (0, 0)⟩]
    (by decide) (by rfl)
    (by norm_num [spawnAll, spawnOne, place, tooClose, candCenter, sqDist, Bubble.center])

/-- C9: the pairwise collision exchange preserves the vector sum of the two
participating directions, in both the colliding and the non-colliding case. -/
theorem collidePair_preserves_direction_sum (bi bj : Bubble) :
    add (collidePair bi bj).1.direction (collidePair bi bj).2.direction
      = add bi.direction bj.direction := by
  by_cases h : sqDist bi.center bj.center < (bi.radius + bj.radius)^2
  · simp only [collidePair, if_pos h, add, sub, tangential, prod, dot, Prod.mk.injEq]
    constructor <;> ring
  · simp only [collidePair, if_neg h]

/-- C3: for an overlapping pair (`sqDist < (r_i + r_j)^2`, the squared form of
`d_ij < r_i + r_j`), the four sequential direction updates of the source
amount exactly to `direction_i' = direction_i - t_i + t_j` and
`direction_j' = direction_j + t_i - t_j` with the tangential components
`t = v * dot(v, direction) = u * (dot(u, direction)/sqDist)`; letters, radii
and positions are untouched, and a non-overlapping pair is left completely
unchanged. -/
theorem collidePair_exchange (bi bj : Bubble) :
    (sqDist bi.center bj.center < (bi.radius + bj.radius)^2 →
      (collidePair bi bj).1.direction =
        add (sub bi.direction
              (tangential (sub bj.center bi.center) (sqDist bi.center bj.center) bi.direction))
            (tangential (sub bj.center bi.center) (sqDist bi.center bj.center) bj.direction) ∧
      (collidePair bi bj).2.direction =
        sub (add bj.direction
              (tangential (sub bj.center bi.center) (sqDist bi.center bj.center) bi.direction))
            (tangential (sub bj.center bi.center) (sqDist bi.center bj.center) bj.direction) ∧
      (collidePair bi bj).1.position = bi.position ∧
      (collidePair bi bj).2.position = bj.position ∧
      (collidePair bi bj).1.radius = bi.radius ∧
      (collidePair bi bj).2.radius = bj.radius ∧
      (collidePair bi bj).1.base = bi.base ∧
      (collidePair bi bj).2.base = bj.base ∧
      (collidePair bi bj).1.upper = bi.upper ∧
      (collidePair bi bj).2.upper = bj.upper) ∧
    (¬ sqDist bi.center bj.center < (bi.radius + bj.radius)^2 →
      collidePair bi bj = (bi, bj)) := by
  constructor
  · intro h
    have hpair : collidePair bi bj =
        (⟨bi.base, bi.upper, bi.radius, bi.position,
            add (sub bi.direction
                (tangential (sub bj.center bi.center) (sqDist bi.center bj.center)
                  bi.direction))
              (tangential (sub bj.center bi.center) (sqDist bi.center bj.center)
                bj.direction)⟩,
         ⟨bj.base, bj.upper, bj.radius, bj.position,
            sub (add bj.direction
                (tangential (sub bj.center bi.center) (sqDist bi.center bj.center)
                  bi.direction))
              (tangential (sub bj.center bi.center) (sqDist bi.center bj.center)
                bj.direction)⟩) := by
      simp only [collidePair, if_pos h]
    rw [hpair]
    exact ⟨rfl, rfl, rfl, rfl, rfl, rfl, rfl, rfl, rfl, rfl⟩
  · intro h
    simp only [collidePair, if_neg h]

/-- Witness for C3: an overlapping pair (center distance 10 < 120) and a
separated pair (center distance 440 ≥ 120). -/
theorem collidePair_exchange_witness :
    (collidePair ⟨0, true, 60, (0, 0), (1, 0)⟩ ⟨1, true, 60, (10, 0), (-1, 0)⟩).1.direction =
      add (sub (1, 0)
            (tangential
              (sub (Bubble.center ⟨1, true, 60, (10, 0), (-1, 0)⟩)
                   (Bubble.center ⟨0, true, 60, (0, 0), (1, 0)⟩))
              (sqDist (Bubble.center ⟨0, true, 60, (0, 0), (1, 0)⟩)
                      (Bubble.center ⟨1, true, 60, (10, 0), (-1, 0)⟩)) (1, 0)))
          (tangential
            (sub (Bubble.center ⟨1, true, 60, (10, 0), (-1, 0)⟩)
                 (Bubble.center ⟨0, true, 60, (0, 0), (1, 0)⟩))
            (sqDist (Bubble.center ⟨0, true, 60, (0, 0), (1, 0)⟩)
                    (Bubble.center ⟨1, true, 60, (10, 0), (-1, 0)⟩)) (-1, 0)) ∧
    collidePair ⟨0, true, 60, (0, 0), (1, 0)⟩ ⟨1, true, 60, (440, 0), (-1, 0)⟩ =
      (⟨0, true, 60, (0, 0), (1, 0)⟩, ⟨1, true, 60, (440, 0), (-1, 0)⟩) :=
  ⟨((collidePair_exchange ⟨0, true, 60, (0, 0), (1, 0)⟩ ⟨1, true, 60, (10, 0), (-1, 0)⟩).1
      (by norm_num [sqDist, Bubble.center])).1,
   (collidePair_exchange ⟨0, true, 60, (0, 0), (1, 0)⟩ ⟨1, true, 60, (440, 0), (-1, 0)⟩).2
      (by norm_num [sqDist, Bubble.center])⟩

lemma wallAxis_inward_low {p d diam bound : ℚ} (hd : diam ≤ bound) (h : p < 0) :
    0 ≤ wallAxis p d diam bound := by
  unfold wallAxis
  split_ifs with h1 h2
  · linarith [h1.2]
  · linarith [h2.1]
  · push_neg at h1
    exact h1 h

lemma wallAxis_inward_high {p d diam bound : ℚ} (hd : diam ≤ bound)
    (h : bound < p + diam) : wallAxis p d diam bound ≤ 0 := by
  unfold wallAxis
  split_ifs with h1 h2
  · linarith [h1.1]
  · linarith [h2.2]
  · push_neg at h2
    exact h2 h

lemma wallAxis_flip_iff {p d diam bound : ℚ} (hd0 : d ≠ 0) :
    wallAxis p d diam bound = -d ↔ (p < 0 ∧ d < 0) ∨ (bound < p + diam ∧ 0 < d) := by
  unfold wallAxis
  split_ifs with h1 h2
  · simp [h1]
  · simp [h2]
  · constructor
    · intro h
      have : d = 0 := by linarith
      exact absurd this hd0
    · intro h
      rcases h with h | h
      · exact absurd ⟨h.1, h.2⟩ h1
      · exact absurd ⟨h.1, h.2⟩ h2

/-- C2 counterexample: the claim "after the advance step and wall-reflection
step are applied, every bubble's position lies within `[0, bound - diameter]`
on each axis" is false: a bubble at the left wall moving left ends the tick at
`x = -16/5 < 0` (reflection negates the direction but never clamps the
position). -/
theorem physics_tick_position_escapes :
    ¬ (0 ≤ (moveBubble 800 480 ⟨0, true, 60, (0, 0), (-1, 0)⟩).position.1) := by
  simp only [moveBubble, speed]
  norm_num

/-- C2 amended: after the advance and wall-reflection of a tick, a bubble may
momentarily lie outside `[0, bound - diameter]`, but on every axis on which it
is out of bounds its direction then points back toward the interior (so the
escape is not permanent); and the reflection negates an axis of direction
exactly when the bubble is past that wall and still moving further out
(stated for nonzero direction components, where negation is observable). -/
theorem physics_tick_no_permanent_escape (width height : ℚ) (b : Bubble)
    (hw : b.diameter ≤ width) (hh : b.diameter ≤ height) :
    (((moveBubble width height b).position.1 < 0 →
        0 ≤ (moveBubble width height b).direction.1) ∧
      (width < (moveBubble width height b).position.1 + b.diameter →
        (moveBubble width height b).direction.1 ≤ 0)) ∧
    (((moveBubble width height b).position.2 < 0 →
        0 ≤ (moveBubble width height b).direction.2) ∧
      (height < (moveBubble width height b).position.2 + b.diameter →
        (moveBubble width height b).direction.2 ≤ 0)) ∧
    ((b.direction.1 ≠ 0 →
        ((moveBubble width height b).direction.1 = -b.direction.1 ↔
          ((moveBubble width height b).position.1 < 0 ∧ b.direction.1 < 0) ∨
          (width < (moveBubble width height b).position.1 + b.diameter ∧
            0 < b.direction.1))) ∧
      (b.direction.2 ≠ 0 →
        ((moveBubble width height b).direction.2 = -b.direction.2 ↔
          ((moveBubble width height b).position.2 < 0 ∧ b.direction.2 < 0) ∨
          (height < (moveBubble width height b).position.2 + b.diameter ∧
            0 < b.direction.2)))) := by
  simp only [moveBubble]
  exact ⟨⟨fun h => wallAxis_inward_low hw h, fun h => wallAxis_inward_high hw h⟩,
         ⟨fun h => wallAxis_inward_low hh h, fun h => wallAxis_inward_high hh h⟩,
         fun h => wallAxis_flip_iff h, fun h => wallAxis_flip_iff h⟩

/-- Witness for C2 (amended): the concrete escaped bubble of the
counterexample has its direction corrected to point back inward. -/
theorem physics_tick_no_permanent_escape_witness :
    0 ≤ (moveBubble 800 480 ⟨0, true, 60, (0, 0), (-1, 0)⟩).direction.1 :=
  (physics_tick_no_permanent_escape 800 480 ⟨0, true, 60, (0, 0), (-1, 0)⟩
    (by norm_num [Bubble.diameter]) (by norm_num [Bubble.diameter])).1.1
    (by simp only [moveBubble, speed]; norm_num)

lemma getD_eq_iff_indexOf {α : Type} [DecidableEq α] {alphabet : List α} {d c : α}
    (hnd : alphabet.Nodup) (hc : c ∈ alphabet) {m : ℕ} (hm : m < alphabet.length) :
    alphabet.getD m d = c ↔ m = alphabet.indexOf c := by
  have hidx : alphabet.indexOf c < alphabet.length := List.indexOf_lt_length.mpr hc
  rw [List.getD_eq_getElem?_getD, List.getElem?_eq_getElem hm]
  simp only [Option.getD_some]
  constructor
  · intro h
    have hc2 : alphabet[alphabet.indexOf c] = c := List.getElem_indexOf hidx
    have heq : alphabet[m] = alphabet[alphabet.indexOf c] := by rw [h, hc2]
    exact hnd.getElem_inj_iff.mp heq
  · intro h
    subst h
    exact List.getElem_indexOf hidx

lemma countP_window_one (k j : ℕ) (hj : j < 26) :
    (List.range 26).countP (fun i => decide ((k + i) % 26 = j)) = 1 := by
  have hi0 : (j + 26 - k % 26) % 26 < 26 := Nat.mod_lt _ (by norm_num)
  have hcongr : ∀ i ∈ List.range 26,
      (decide ((k + i) % 26 = j)) ↔ (i == (j + 26 - k % 26) % 26) := by
    intro i hi
    rw [List.mem_range] at hi
    simp only [decide_eq_true_eq, beq_iff_eq]
    omega
  rw [List.countP_congr hcongr, ← List.count_eq_countP]
  exact List.count_eq_one_of_mem (List.nodup_range 26) (List.mem_range.mpr hi0)

lemma drawLetter_window_count {α : Type} [DecidableEq α] (alphabet : List α) (d : α)
    (h26 : alphabet.length = 26) (hnd : alphabet.Nodup) (k : ℕ) (c : α)
    (hc : c ∈ alphabet) :
    ((List.range 26).map (fun i => drawLetter alphabet d (k + i))).count c = 1 := by
  rw [List.count_eq_countP, List.countP_map]
  have hj : alphabet.indexOf c < 26 := h26 ▸ List.indexOf_lt_length.mpr hc
  have hcongr : ∀ i ∈ List.range 26,
      (((fun x => x == c) ∘ fun i => drawLetter alphabet d (k + i)) i) ↔
      (decide ((k + i) % 26 = alphabet.indexOf c)) := by
    intro i hi
    simp only [Function.comp_apply, beq_iff_eq, decide_eq_true_eq]
    unfold drawLetter
    rw [h26]
    exact getD_eq_iff_indexOf hnd hc (by rw [h26]; exact Nat.mod_lt _ (by norm_num))
  rw [List.countP_congr hcongr]
  exact countP_window_one k _ hj

/-- C4: the cursor draws `alphabet[counter % 26]` with the counter advancing
by one per draw, so over any 26 consecutive draws each of the 26 letters of
the (shuffled, session-fixed) alphabet appears exactly once, whatever case
modes and coin flips are in effect for each draw (the case policy only sets
the case flag and never changes the grapheme). -/
theorem alphabet_cursor_each_letter_once {α : Type} [DecidableEq α]
    (alphabet : List α) (d : α) (h26 : alphabet.length = 26) (hnd : alphabet.Nodup)
    (k : ℕ) (modes : ℕ → ℕ) (coins : ℕ → Bool) (c : α) (hc : c ∈ alphabet) :
    ((List.range 26).map
        (fun i => (applyMode (modes i) (coins i) (drawLetter alphabet d (k + i))).1)).count c
      = 1 := by
  have hbase : ∀ i, (applyMode (modes i) (coins i) (drawLetter alphabet d (k + i))).1
      = drawLetter alphabet d (k + i) := by
    intro i
    unfold applyMode
    split_ifs <;> rfl
  simp only [hbase]
  exact drawLetter_window_count alphabet d h26 hnd k c hc

/-- Witness for C4: a concrete alphabet (`0..25`), window start 3, mixed-case
mode with all coins lower. -/
theorem alphabet_cursor_each_letter_once_witness :
    ((List.range 26).map
        (fun i => (applyMode 1 false (drawLetter (List.range 26) 0 (3 + i))).1)).count 5
      = 1 :=
  alphabet_cursor_each_letter_once (List.range 26) 0 (by simp) (List.nodup_range 26) 3
    (fun _ => 1) (fun _ => false) 5 (by decide)

/-- C5 counterexample: the run loop gates clicks only on
`state != BRAVO_STATE`, so a tap arriving while the phase is Announcing is
handled by `clicked`, and when it lands inside the target bubble's circle it
changes the phase (to Bravo).  Concretely: one bubble with center
`(160, 160)`, radius 60; a tap at exactly `(160, 160)` during Announcing. -/
theorem tap_during_announce_changes_phase :
    (handleEvent 800 480 1 8 ⟨fun _ => default, fun _ => 0, 1, fun _ => 1, false, false⟩
        (GEvent.mouseDown (160, 160))
        ⟨[⟨0, true, 60, (100, 100), (1, 0)⟩], 0, Phase.announce, 0, 0, 0⟩).phase
      ≠ Phase.announce := by
  have hhit : hits (160, 160) (⟨0, true, 60, (100, 100), (1, 0)⟩ : Bubble) = true := by
    simp only [hits, sqDist, Bubble.center, decide_eq_true_eq]
    norm_num
  simp [handleEvent, clicked, hhit]

/-- C5 amended: taps are ignored entirely while the phase is Bravo, and the
announce-timer expiry transitions to Playing; but a correct tap (pointer
inside the target bubble's circle) transitions to Bravo from *any* phase in
which taps are processed — both Playing and Announcing — not only from
Playing. -/
theorem taps_gated_by_phase (width height : ℚ) (nbg maxn : ℕ) (o : ClickOracle)
    (pos : Vec) (g : GameState) :
    (g.phase = Phase.bravo →
      handleEvent width height nbg maxn o (GEvent.mouseDown pos) g = g) ∧
    (handleEvent width height nbg maxn o GEvent.announceTimer g).phase = Phase.play ∧
    (g.phase ≠ Phase.bravo → hitsTarget pos g = true →
      (handleEvent width height nbg maxn o (GEvent.mouseDown pos) g).phase
        = Phase.bravo) := by
  refine ⟨?_, rfl, ?_⟩
  · intro h
    simp [handleEvent, h]
  · intro h hhit
    unfold hitsTarget at hhit
    simp only [handleEvent, if_pos h, clicked, if_pos hhit]

/-- Witness for C5 (amended), at a concrete oracle and concrete states in
each of the three phases. -/
theorem taps_gated_by_phase_witness :
    (handleEvent 800 480 1 8 ⟨fun _ => default, fun _ => 0, 1, fun _ => 1, false, false⟩
        (GEvent.mouseDown (0, 0))
        ⟨[⟨0, true, 60, (100, 100), (1, 0)⟩], 0, Phase.bravo, 0, 0, 0⟩ =
      ⟨[⟨0, true, 60, (100, 100), (1, 0)⟩], 0, Phase.bravo, 0, 0, 0⟩) ∧
    (handleEvent 800 480 1 8 ⟨fun _ => default, fun _ => 0, 1, fun _ => 1, false, false⟩
        GEvent.announceTimer
        ⟨[⟨0, true, 60, (100, 100), (1, 0)⟩], 0, Phase.announce, 0, 0, 0⟩).phase
      = Phase.play ∧
    (handleEvent 800 480 1 8 ⟨fun _ => default, fun _ => 0, 1, fun _ => 1, false, false⟩
        (GEvent.mouseDown (160, 160))
        ⟨[⟨0, true, 60, (100, 100), (1, 0)⟩], 0, Phase.play, 0, 0, 0⟩).phase
      = Phase.bravo :=
  ⟨(taps_gated_by_phase 800 480 1 8 _ (0, 0) _).1 rfl,
   (taps_gated_by_phase 800 480 1 8 _ (0, 0) _).2.1,
   (taps_gated_by_phase 800 480 1 8 _ (160, 160) _).2.2 (by decide)
     (by norm_num [hitsTarget, hits, sqDist, Bubble.center])⟩

lemma growTo_length_aux (mkB : ℕ → Bubble) (n : ℕ) :
    ∀ (d k : ℕ) (bs : List Bubble), n - bs.length ≤ d →
      (growTo mkB k n bs).length = max bs.length n := by
  intro d
  induction d with
  | zero =>
      intro k bs hd
      rw [growTo, if_neg (by omega)]
      omega
  | succ d ih =>
      intro k bs hd
      rw [growTo]
      by_cases hlt : bs.length < n
      · rw [if_pos hlt, ih (k + 1) (bs ++ [mkB k]) (by simp; omega)]
        simp
        omega
      · rw [if_neg hlt]
        omega

lemma growTo_length (mkB : ℕ → Bubble) (k n : ℕ) (bs : List Bubble) :
    (growTo mkB k n bs).length = max bs.length n :=
  growTo_length_aux mkB n (n - bs.length) k bs (le_refl _)

lemma shrinkTo_length_aux (pick : ℕ → ℕ) (n : ℕ) :
    ∀ (d k : ℕ) (bs : List Bubble), bs.length ≤ d →
      (shrinkTo pick k n bs).length = min bs.length n := by
  intro d
  induction d with
  | zero =>
      intro k bs hd
      rw [shrinkTo, dif_neg (by omega)]
      omega
  | succ d ih =>
      intro k bs hd
      rw [shrinkTo]
      by_cases hlt : n < bs.length
      · rw [dif_pos hlt,
          ih (k + 1) ((listSwap bs (pick k) (bs.length - 1)).dropLast)
            (by simp [listSwap]; omega)]
        simp [listSwap]
        omega
      · rw [dif_neg hlt]
        omega

lemma shrinkTo_length (pick : ℕ → ℕ) (k n : ℕ) (bs : List Bubble) :
    (shrinkTo pick k n bs).length = min bs.length n :=
  shrinkTo_length_aux pick n bs.length k bs (le_refl _)

lemma popWrong_length (mkB : ℕ → Bubble) (pos : Vec) :
    ∀ (m i k : ℕ) (bs : List Bubble), (popWrong mkB pos m i k bs).length = bs.length := by
  intro m
  induction m with
  | zero => intro i k bs; rfl
  | succ m ih =>
      intro i k bs
      rw [popWrong]
      split
      · rw [ih]
        simp
      · exact ih _ _ _

lemma clampCount_pos (rawCount : ℤ) (maxn : ℕ) : 1 ≤ clampCount rawCount maxn := by
  unfold clampCount
  omega

lemma clampCount_le (rawCount : ℤ) (maxn : ℕ) (hmax : 1 ≤ maxn) :
    clampCount rawCount maxn ≤ maxn := by
  unfold clampCount
  omega

/-- C7: after any branch of the click handler — correct tap, mode tap,
bubble-count tap, or wrong-tap pop — the target index is a valid index into
the (possibly resized) bubble collection; the same holds for the earlier
variant's handler.  The hypotheses are the pre-state invariant and the
`randrange(len)` contract. -/
theorem clicked_target_index_valid (nbg maxn : ℕ) (o : ClickOracle) (pos : Vec)
    (g : GameState) (ht : g.target < g.bubbles.length)
    (hrt : ∀ m, 0 < m → o.randTarget m < m) :
    (clicked nbg maxn o pos g).target < (clicked nbg maxn o pos g).bubbles.length ∧
    (clickedV1 o pos g).target < (clickedV1 o pos g).bubbles.length := by
  have hlen : 0 < g.bubbles.length := Nat.lt_of_le_of_lt (Nat.zero_le _) ht
  constructor
  · simp only [clicked]
    by_cases h1 : hits pos (g.bubbles.getD g.target default) = true
    · rw [if_pos h1]
      simp only [List.length_set]
      exact hrt _ hlen
    · rw [if_neg h1]
      by_cases h2 : o.inModeRect = true
      · rw [if_pos h2]
        exact ht
      · rw [if_neg h2]
        by_cases h3 : o.inBubblesRect = true
        · rw [if_pos h3]
          simp only [shrinkTo_length, growTo_length]
          have := clampCount_pos o.rawCount maxn
          simp only [listSwap, List.length_set]
          omega
        · rw [if_neg h3]
          simp only [popWrong_length]
          exact ht
  · simp only [clickedV1]
    by_cases h1 : hits pos (g.bubbles.getD g.target default) = true
    · rw [if_pos h1]
      by_cases h7 : (g.correct + 1) % 7 = 0 ∧ (g.bubbles.set g.target (o.mkB 0)).length < 8
      · rw [if_pos h7]
        apply hrt
        simp
      · rw [if_neg h7]
        apply hrt
        simp only [List.length_set]
        exact hlen
    · rw [if_neg h1]
      exact ht

/-- Witness for C7 at a concrete one-bubble state and oracle. -/
theorem clicked_target_index_valid_witness :
    (clicked 1 8 ⟨fun _ => default, fun _ => 0, 1, fun _ => 1, false, false⟩ (160, 160)
        ⟨[⟨0, true, 60, (100, 100), (1, 0)⟩], 0, Phase.play, 0, 0, 0⟩).target <
      (clicked 1 8 ⟨fun _ => default, fun _ => 0, 1, fun _ => 1, false, false⟩ (160, 160)
        ⟨[⟨0, true, 60, (100, 100), (1, 0)⟩], 0, Phase.play, 0, 0, 0⟩).bubbles.length ∧
    (clickedV1 ⟨fun _ => default, fun _ => 0, 1, fun _ => 1, false, false⟩ (160, 160)
        ⟨[⟨0, true, 60, (100, 100), (1, 0)⟩], 0, Phase.play, 0, 0, 0⟩).target <
      (clickedV1 ⟨fun _ => default, fun _ => 0, 1, fun _ => 1, false, false⟩ (160, 160)
        ⟨[⟨0, true, 60, (100, 100), (1, 0)⟩], 0, Phase.play, 0, 0, 0⟩).bubbles.length :=
  clicked_target_index_valid 1 8 ⟨fun _ => default, fun _ => 0, 1, fun _ => 1, false, false⟩
    (160, 160) ⟨[⟨0, true, 60, (100, 100), (1, 0)⟩], 0, Phase.play, 0, 0, 0⟩
    (by decide) (fun m hm => hm)

lemma listSwap_getElem?_zero_ne {bs : List Bubble} {i j : ℕ} (hi : i ≠ 0) (hj : j ≠ 0) :
    (listSwap bs i j)[0]? = bs[0]? := by
  unfold listSwap
  rw [List.getElem?_set_ne hj, List.getElem?_set_ne hi]

lemma listSwap_target_zero {bs : List Bubble} {t : ℕ} (ht : t < bs.length) :
    (listSwap bs t 0)[0]? = bs[t]? := by
  have hlen : 0 < bs.length := Nat.lt_of_le_of_lt (Nat.zero_le _) ht
  unfold listSwap
  rw [List.getElem?_set_self (by simpa using hlen)]
  rw [List.getD_eq_getElem?_getD, List.getElem?_eq_getElem ht]
  simp

lemma growTo_getElem?_zero_aux (mkB : ℕ → Bubble) (n : ℕ) :
    ∀ (d k : ℕ) (bs : List Bubble), n - bs.length ≤ d → 0 < bs.length →
      (growTo mkB k n bs)[0]? = bs[0]? := by
  intro d
  induction d with
  | zero =>
      intro k bs hd _
      rw [growTo, if_neg (by omega)]
  | succ d ih =>
      intro k bs hd h0
      rw [growTo]
      by_cases hlt : bs.length < n
      · rw [if_pos hlt, ih (k + 1) (bs ++ [mkB k]) (by simp; omega) (by simp)]
        exact List.getElem?_append_left h0
      · rw [if_neg hlt]

lemma shrinkTo_getElem?_zero_aux (pick : ℕ → ℕ) (n : ℕ) (hn : 1 ≤ n)
    (hpick : ∀ k, 1 ≤ pick k) :
    ∀ (d k : ℕ) (bs : List Bubble), bs.length ≤ d →
      (shrinkTo pick k n bs)[0]? = bs[0]? := by
  intro d
  induction d with
  | zero =>
      intro k bs hd
      rw [shrinkTo, dif_neg (by omega)]
  | succ d ih =>
      intro k bs hd
      rw [shrinkTo]
      by_cases hlt : n < bs.length
      · rw [dif_pos hlt,
          ih (k + 1) ((listSwap bs (pick k) (bs.length - 1)).dropLast)
            (by simp [listSwap]; omega)]
        rw [List.getElem?_dropLast, if_pos (by simp [listSwap]; omega)]
        exact listSwap_getElem?_zero_ne (by have := hpick k; omega) (by omega)
      · rw [dif_neg hlt]

/-- C6: a tap on the bubble-count indicator requesting `n` bubbles leaves the
collection with exactly `n = clampCount rawCount maxn` bubbles (the clamped
request, which always lies in `[1, maxn]`), moves the pre-tap target bubble
to index 0 where it survives both growing and shrinking (shrink removal only
touches indices `≥ 1`), and resets the target index to 0. -/
theorem bubble_count_tap (nbg maxn : ℕ) (o : ClickOracle) (pos : Vec) (g : GameState)
    (hmiss : hits pos (g.bubbles.getD g.target default) = false)
    (hmode : o.inModeRect = false) (hbub : o.inBubblesRect = true)
    (ht : g.target < g.bubbles.length)
    (hpick : ∀ k, 1 ≤ o.shrinkPick k) (hmax : 1 ≤ maxn) :
    (clicked nbg maxn o pos g).bubbles.length = clampCount o.rawCount maxn ∧
    (clicked nbg maxn o pos g).target = 0 ∧
    (clicked nbg maxn o pos g).bubbles[0]? = g.bubbles[g.target]? ∧
    1 ≤ clampCount o.rawCount maxn ∧ clampCount o.rawCount maxn ≤ maxn := by
  have hno1 : ¬ (hits pos (g.bubbles.getD g.target default) = true) := by
    rw [hmiss]
    simp
  have hno2 : ¬ (o.inModeRect = true) := by
    rw [hmode]
    simp
  have hcl : clicked nbg maxn o pos g =
      { g with
        bubbles := shrinkTo o.shrinkPick 0 (clampCount o.rawCount maxn)
          (growTo o.mkB 0 (clampCount o.rawCount maxn) (listSwap g.bubbles g.target 0)),
        target := 0 } := by
    simp only [clicked, if_neg hno1, if_neg hno2, if_pos hbub]
  rw [hcl]
  refine ⟨?_, rfl, ?_, clampCount_pos _ _, clampCount_le _ _ hmax⟩
  · simp only [shrinkTo_length, growTo_length, listSwap, List.length_set]
    omega
  · rw [shrinkTo_getElem?_zero_aux o.shrinkPick _ (clampCount_pos _ _) hpick
        (growTo o.mkB 0 (clampCount o.rawCount maxn) (listSwap g.bubbles g.target 0)).length
        0 _ (le_refl _)]
    rw [growTo_getElem?_zero_aux o.mkB _
        (clampCount o.rawCount maxn - (listSwap g.bubbles g.target 0).length) 0 _
        (le_refl _) (by simp [listSwap]; omega)]
    exact listSwap_target_zero ht

/-- Witness for C6: two bubbles, target at index 1, request clamped to 1;
afterwards exactly one bubble remains, the former target, at index 0. -/
theorem bubble_count_tap_witness :
    (clicked 1 8 ⟨fun _ => default, fun _ => 0, 1, fun _ => 1, false, true⟩ (0, 0)
        ⟨[⟨0, true, 60, (100, 100), (1, 0)⟩, ⟨1, true, 60, (400, 100), (1, 0)⟩],
          1, Phase.play, 0, 0, 0⟩).bubbles.length = clampCount 1 8 ∧
    (clicked 1 8 ⟨fun _ => default, fun _ => 0, 1, fun _ => 1, false, true⟩ (0, 0)
        ⟨[⟨0, true, 60, (100, 100), (1, 0)⟩, ⟨1, true, 60, (400, 100), (1, 0)⟩],
          1, Phase.play, 0, 0, 0⟩).target = 0 ∧
    (clicked 1 8 ⟨fun _ => default, fun _ => 0, 1, fun _ => 1, false, true⟩ (0, 0)
        ⟨[⟨0, true, 60, (100, 100), (1, 0)⟩, ⟨1, true, 60, (400, 100), (1, 0)⟩],
          1, Phase.play, 0, 0, 0⟩).bubbles[0]? =
      ([⟨0, true, 60, (100, 100), (1, 0)⟩, ⟨1, true, 60, (400, 100), (1, 0)⟩] :
        List Bubble)[1]? ∧
    1 ≤ clampCount 1 8 ∧ clampCount 1 8 ≤ 8 :=
  bubble_count_tap 1 8 ⟨fun _ => default, fun _ => 0, 1, fun _ => 1, false, true⟩ (0, 0)
    ⟨[⟨0, true, 60, (100, 100), (1, 0)⟩, ⟨1, true, 60, (400, 100), (1, 0)⟩],
      1, Phase.play, 0, 0, 0⟩
    (by norm_num [hits, sqDist, Bubble.center]) rfl rfl (by decide)
    (fun _ => le_refl 1) (by decide)

/-- C8: on a correct tap, when the incremented correct-answer counter reaches
a multiple of 7 the loaded background index advances by exactly 1 modulo the
number of backgrounds (given the invariant that the current background is the
one selected by the last multiple of 7), and otherwise it is unchanged; in
the later variant the bubble count never changes on a correct tap, while in
the earlier variant (src/alphapop.py) a bubble is appended on the 7th correct
answer exactly while fewer than 8 bubbles exist. -/
theorem seventh_correct_escalation (nbg maxn : ℕ) (o : ClickOracle) (pos : Vec)
    (g : GameState) (hhit : hitsTarget pos g = true)
    (hsync : g.bgIdx = (g.correct / 7) % nbg) :
    ((clicked nbg maxn o pos g).bgIdx =
      if (g.correct + 1) % 7 = 0 then (g.bgIdx + 1) % nbg else g.bgIdx) ∧
    (clicked nbg maxn o pos g).bubbles.length = g.bubbles.length ∧
    ((clickedV1 o pos g).bubbles.length =
      if (g.correct + 1) % 7 = 0 ∧ g.bubbles.length < 8 then g.bubbles.length + 1
      else g.bubbles.length) := by
  unfold hitsTarget at hhit
  refine ⟨?_, ?_, ?_⟩
  · simp only [clicked, if_pos hhit]
    by_cases h7 : (g.correct + 1) % 7 = 0
    · rw [if_pos h7, if_pos h7, hsync]
      have hdiv : (g.correct + 1) / 7 = g.correct / 7 + 1 := by omega
      rw [hdiv, Nat.mod_add_mod]
    · rw [if_neg h7, if_neg h7]
  · simp only [clicked, if_pos hhit, List.length_set]
  · simp only [clickedV1, if_pos hhit, List.length_set]
    by_cases h7 : (g.correct + 1) % 7 = 0 ∧ g.bubbles.length < 8
    · rw [if_pos h7, if_pos h7]
      simp
    · rw [if_neg h7, if_neg h7]
      simp

/-- Witness for C8: counter at 6, one bubble, three backgrounds; the 7th
correct tap advances the background index from 0 to 1 and appends a bubble in
the earlier variant. -/
theorem seventh_correct_escalation_witness :
    ((clicked 3 8 ⟨fun _ => default, fun _ => 0, 1, fun _ => 1, false, false⟩ (160, 160)
        ⟨[⟨0, true, 60, (100, 100), (1, 0)⟩], 0, Phase.play, 0, 6, 0⟩).bgIdx =
      if (6 + 1) % 7 = 0 then (0 + 1) % 3 else 0) ∧
    (clicked 3 8 ⟨fun _ => default, fun _ => 0, 1, fun _ => 1, false, false⟩ (160, 160)
        ⟨[⟨0, true, 60, (100, 100), (1, 0)⟩], 0, Phase.play, 0, 6, 0⟩).bubbles.length =
      ([⟨0, true, 60, (100, 100), (1, 0)⟩] : List Bubble).length ∧
    ((clickedV1 ⟨fun _ => default, fun _ => 0, 1, fun _ => 1, false, false⟩ (160, 160)
        ⟨[⟨0, true, 60, (100, 100), (1, 0)⟩], 0, Phase.play, 0, 6, 0⟩).bubbles.length =
      if (6 + 1) % 7 = 0 ∧ ([⟨0, true, 60, (100, 100), (1, 0)⟩] : List Bubble).length < 8
      then ([⟨0, true, 60, (100, 100), (1, 0)⟩] : List Bubble).length + 1
      else ([⟨0, true, 60, (100, 100), (1, 0)⟩] : List Bubble).length) :=
  seventh_correct_escalation 3 8 ⟨fun _ => default, fun _ => 0, 1, fun _ => 1, false, false⟩
    (160, 160) ⟨[⟨0, true, 60, (100, 100), (1, 0)⟩], 0, Phase.play, 0, 6, 0⟩
    (by norm_num [hitsTarget, hits, sqDist, Bubble.center]) rfl

lemma popSpec_length (mkB : ℕ → Bubble) (pos : Vec) :
    ∀ (bs : List Bubble) (k : ℕ), (popSpec mkB pos k bs).length = bs.length := by
  intro bs
  induction bs with
  | nil => intro k; rfl
  | cons b rest ih =>
      intro k
      rw [popSpec]
      split
      · simp [ih]
      · simp [ih]

lemma popSpec_miss (mkB : ℕ → Bubble) (pos : Vec) :
    ∀ (bs : List Bubble) (k i : ℕ) (b : Bubble), bs[i]? = some b → hits pos b = false →
      (popSpec mkB pos k bs)[i]? = some b := by
  intro bs
  induction bs with
  | nil => intro k i b hb _; simp at hb
  | cons a rest ih =>
      intro k i b hb hm
      cases i with
      | zero =>
          simp only [List.getElem?_cons_zero, Option.some_inj] at hb
          subst hb
          rw [popSpec, if_neg (by rw [hm]; simp)]
          simp
      | succ i =>
          simp only [List.getElem?_cons_succ] at hb
          rw [popSpec]
          split
          · simpa using ih (k + 1) i b hb hm
          · simpa using ih k i b hb hm

lemma popSpec_hit (mkB : ℕ → Bubble) (pos : Vec) :
    ∀ (bs : List Bubble) (k i : ℕ) (b : Bubble), bs[i]? = some b → hits pos b = true →
      ∃ k2, (popSpec mkB pos k bs)[i]? = some (mkB k2) := by
  intro bs
  induction bs with
  | nil => intro k i b hb _; simp at hb
  | cons a rest ih =>
      intro k i b hb hh
      cases i with
      | zero =>
          simp only [List.getElem?_cons_zero, Option.some_inj] at hb
          subst hb
          rw [popSpec, if_pos hh]
          exact ⟨k, by simp⟩
      | succ i =>
          simp only [List.getElem?_cons_succ] at hb
          rw [popSpec]
          split
          · obtain ⟨k2, hk2⟩ := ih (k + 1) i b hb hh
            exact ⟨k2, by simpa using hk2⟩
          · obtain ⟨k2, hk2⟩ := ih k i b hb hh
            exact ⟨k2, by simpa using hk2⟩

lemma popSpec_no_hit (mkB : ℕ → Bubble) (pos : Vec) :
    ∀ (bs : List Bubble) (k : ℕ), (∀ b ∈ bs, hits pos b = false) →
      popSpec mkB pos k bs = bs := by
  intro bs
  induction bs with
  | nil => intro k _; rfl
  | cons a rest ih =>
      intro k hall
      rw [popSpec, if_neg (by rw [hall a (List.mem_cons_self a rest)]; simp)]
      rw [ih k (fun b hb => hall b (List.mem_cons_of_mem a hb))]

lemma set_append_length {pre suf : List Bubble} {x : Bubble} :
    (pre ++ suf).set pre.length x = pre ++ suf.set 0 x := by
  rw [List.set_append_right _ _ (le_refl _)]
  simp

lemma popWrong_eq_popSpec (mkB : ℕ → Bubble) (pos : Vec) :
    ∀ (suf pre : List Bubble) (k : ℕ),
      popWrong mkB pos suf.length pre.length k (pre ++ suf)
        = pre ++ popSpec mkB pos k suf := by
  intro suf
  induction suf with
  | nil =>
      intro pre k
      simp [popWrong, popSpec]
  | cons b rest ih =>
      intro pre k
      have hb : (pre ++ b :: rest).getD pre.length default = b := by
        rw [List.getD_eq_getElem?_getD, List.getElem?_append_right (le_refl _)]
        simp
      rw [show (b :: rest).length = rest.length + 1 from rfl, popWrong, hb]
      by_cases hh : hits pos b = true
      · rw [if_pos hh, set_append_length,
          show (b :: rest).set 0 (mkB k) = mkB k :: rest from rfl,
          show pre ++ mkB k :: rest = (pre ++ [mkB k]) ++ rest by simp,
          show pre.length + 1 = (pre ++ [mkB k]).length by simp,
          ih (pre ++ [mkB k]) (k + 1), popSpec, if_pos hh]
        simp
      · rw [if_neg hh,
          show pre ++ b :: rest = (pre ++ [b]) ++ rest by simp,
          show pre.length + 1 = (pre ++ [b]).length by simp,
          ih (pre ++ [b]) k, popSpec, if_neg hh]
        simp

/-- C10: a tap outside the target's circle and outside both indicator
rectangles leaves the phase, target index, mode, counters and bubble count
unchanged; every bubble whose circle does not contain the tap point is left
in place, every bubble whose circle does contain it is replaced in place by a
freshly made bubble, and if no bubble contains the point the collection is
completely unchanged. -/
theorem wrong_tap_pops_contained (nbg maxn : ℕ) (o : ClickOracle) (pos : Vec)
    (g : GameState)
    (hmiss : hitsTarget pos g = false)
    (hmode : o.inModeRect = false) (hbub : o.inBubblesRect = false) :
    (clicked nbg maxn o pos g).phase = g.phase ∧
    (clicked nbg maxn o pos g).target = g.target ∧
    (clicked nbg maxn o pos g).mode = g.mode ∧
    (clicked nbg maxn o pos g).correct = g.correct ∧
    (clicked nbg maxn o pos g).bgIdx = g.bgIdx ∧
    (clicked nbg maxn o pos g).bubbles.length = g.bubbles.length ∧
    (∀ (i : ℕ) (b : Bubble), g.bubbles[i]? = some b → hits pos b = false →
      (clicked nbg maxn o pos g).bubbles[i]? = some b) ∧
    (∀ (i : ℕ) (b : Bubble), g.bubbles[i]? = some b → hits pos b = true →
      ∃ k, (clicked nbg maxn o pos g).bubbles[i]? = some (o.mkB k)) ∧
    ((∀ b ∈ g.bubbles, hits pos b = false) →
      (clicked nbg maxn o pos g).bubbles = g.bubbles) := by
  unfold hitsTarget at hmiss
  have hno1 : ¬ (hits pos (g.bubbles.getD g.target default) = true) := by
    rw [hmiss]
    simp
  have hno2 : ¬ (o.inModeRect = true) := by
    rw [hmode]
    simp
  have hno3 : ¬ (o.inBubblesRect = true) := by
    rw [hbub]
    simp
  have hpop : popWrong o.mkB pos g.bubbles.length 0 0 g.bubbles
      = popSpec o.mkB pos 0 g.bubbles := by
    have h := popWrong_eq_popSpec o.mkB pos g.bubbles [] 0
    simpa using h
  have hcl : clicked nbg maxn o pos g = { g with bubbles := popSpec o.mkB pos 0 g.bubbles } := by
    simp only [clicked, if_neg hno1, if_neg hno2, if_neg hno3, hpop]
  rw [hcl]
  refine ⟨rfl, rfl, rfl, rfl, rfl, popSpec_length o.mkB pos g.bubbles 0, ?_, ?_, ?_⟩
  · intro i b hb hm
    exact popSpec_miss o.mkB pos g.bubbles 0 i b hb hm
  · intro i b hb hh
    exact popSpec_hit o.mkB pos g.bubbles 0 i b hb hh
  · intro hall
    simp only [popSpec_no_hit o.mkB pos g.bubbles 0 hall]

/-- Witness for C10: two bubbles, tap at the second (non-target) bubble's
center; the first bubble and all scalar state survive, the second is replaced
by a fresh bubble. -/
theorem wrong_tap_pops_contained_witness :
    (clicked 1 8
        ⟨fun k => ⟨10 + k, true, 60, (700, 300), (1, 0)⟩, fun _ => 0, 1, fun _ => 1,
          false, false⟩ (460, 160)
        ⟨[⟨0, true, 60, (100, 100), (1, 0)⟩, ⟨1, true, 60, (400, 100), (1, 0)⟩],
          0, Phase.play, 0, 0, 0⟩).phase = Phase.play ∧
    (clicked 1 8
        ⟨fun k => ⟨10 + k, true, 60, (700, 300), (1, 0)⟩, fun _ => 0, 1, fun _ => 1,
          false, false⟩ (460, 160)
        ⟨[⟨0, true, 60, (100, 100), (1, 0)⟩, ⟨1, true, 60, (400, 100), (1, 0)⟩],
          0, Phase.play, 0, 0, 0⟩).target = 0 ∧
    (clicked 1 8
        ⟨fun k => ⟨10 + k, true, 60, (700, 300), (1, 0)⟩, fun _ => 0, 1, fun _ => 1,
          false, false⟩ (460, 160)
        ⟨[⟨0, true, 60, (100, 100), (1, 0)⟩, ⟨1, true, 60, (400, 100), (1, 0)⟩],
          0, Phase.play, 0, 0, 0⟩).bubbles[0]? = some ⟨0, true, 60, (100, 100), (1, 0)⟩ ∧
    (∃ k, (clicked 1 8
        ⟨fun k => ⟨10 + k, true, 60, (700, 300), (1, 0)⟩, fun _ => 0, 1, fun _ => 1,
          false, false⟩ (460, 160)
        ⟨[⟨0, true, 60, (100, 100), (1, 0)⟩, ⟨1, true, 60, (400, 100), (1, 0)⟩],
          0, Phase.play, 0, 0, 0⟩).bubbles[1]? =
      some (⟨10 + k, true, 60, (700, 300), (1, 0)⟩ : Bubble)) := by
  have h := wrong_tap_pops_contained 1 8
    ⟨fun k => ⟨10 + k, true, 60, (700, 300), (1, 0)⟩, fun _ => 0, 1, fun _ => 1,
      false, false⟩ (460, 160)
    ⟨[⟨0, true, 60, (100, 100), (1, 0)⟩, ⟨1, true, 60, (400, 100), (1, 0)⟩],
      0, Phase.play, 0, 0, 0⟩
    (by norm_num [hitsTarget, hits, sqDist, Bubble.center]) rfl rfl
  exact ⟨h.1, h.2.1,
    h.2.2.2.2.2.2.1 0 ⟨0, true, 60, (100, 100), (1, 0)⟩ rfl
      (by norm_num [hits, sqDist, Bubble.center]),
    h.2.2.2.2.2.2.2.1 1 ⟨1, true, 60, (400, 100), (1, 0)⟩ rfl
      (by norm_num [hits, sqDist, Bubble.center])⟩

end AlphaPop
